import Mathlib

/-!
Verification of the OSC button-controller firmware (`code.py`).

The program's message codec, edge detector, retry loops and startup sequence
are embedded shallowly:

* byte strings are `List Nat` (each element < 256 where produced by the code);
* Python `str` addresses/arguments appear as their UTF-8 byte sequences;
* the stateful main loop becomes explicit state passing;
* fallible operations return `Option`.
-/

namespace OscButton

/-- Argument of an OSC message: the code handles `int` and `str` arguments
(`build_osc_message`, lines 128-150).  A string argument is carried as its
UTF-8 byte sequence. -/
inductive Arg : Type
  | int (i : Int)
  | str (s : List Nat)
deriving DecidableEq, Repr

/-- Source `pad4` (line 115-117): `s + b'\x00' * ((4 - (len(s) % 4)) % 4)`. -/
def pad4 (s : List Nat) : List Nat :=
  s ++ List.replicate ((4 - s.length % 4) % 4) 0

/-- Type-tag byte for one argument (lines 128-135): `'s'` (115) for strings,
`'i'` (105) for ints; the code's fallback branch for other types also yields
`'i'` but such arguments are outside the embedded `Arg` type. -/
def tagByte : Arg → Nat
  | Arg.int _ => 105
  | Arg.str _ => 115

/-- The type-tag accumulation loop of `build_osc_message` (lines 127-135):
starts from `","` (byte 44) and appends one tag byte per argument. -/
def typeTags (args : List Arg) : List Nat :=
  args.foldl (fun acc a => acc ++ [tagByte a]) [44]

/-- Python `i.to_bytes(4, 'big', signed=True)` for in-range `i`:
the four big-endian base-256 digits of `i mod 2^32`. -/
def intToBytes4 (i : Int) : List Nat :=
  let n := (i % 4294967296).toNat
  [n / 16777216 % 256, n / 65536 % 256, n / 256 % 256, n % 256]

/-- Encoding of one argument in the argument section of `build_osc_message`
(lines 140-150): strings are null-terminated then padded, ints are 4-byte
big-endian signed. -/
def encodeArg : Arg → List Nat
  | Arg.int i => intToBytes4 i
  | Arg.str s => pad4 (s ++ [0])

/-- Source `build_osc_message` (lines 119-152): padded address bytes, then padded
type tags, then the encoded arguments in order.  The address parameter is the
UTF-8 byte sequence of the Python address string. -/
def build_osc_message (addr : List Nat) (args : List Arg) : List Nat :=
  pad4 addr ++ pad4 (typeTags args) ++ (args.map encodeArg).flatten

/-- The fields of the encoded message, before concatenation: the padded
address, the padded type-tag string, and one field per argument. -/
def oscFields (addr : List Nat) (args : List Arg) : List (List Nat) :=
  pad4 addr :: pad4 (typeTags args) :: args.map encodeArg

/-- Continuation byte test for UTF-8: `0x80 ≤ b ≤ 0xBF`. -/
def isCont (b : Nat) : Bool := 128 ≤ b && b ≤ 191

/-- Strict UTF-8 decoding to the list of code points, mirroring Python
`bytes.decode('utf-8')` acceptance: rejects stray continuation bytes, overlong
encodings, surrogates (U+D800..U+DFFF), code points above U+10FFFF, and
truncated sequences.  `none` models `UnicodeDecodeError`. -/
def utf8Decode : List Nat → Option (List Nat)
  | [] => some []
  | b :: rest =>
    if b ≤ 127 then
      (utf8Decode rest).map (fun cs => b :: cs)
    else if b ≤ 193 then
      none
    else if b ≤ 223 then
      match rest with
      | b1 :: r =>
        if isCont b1 then
          (utf8Decode r).map (fun cs => ((b - 192) * 64 + (b1 - 128)) :: cs)
        else none
      | [] => none
    else if b ≤ 239 then
      match rest with
      | b1 :: b2 :: r =>
        let lo1 := if b = 224 then 160 else 128
        let hi1 := if b = 237 then 159 else 191
        if lo1 ≤ b1 && b1 ≤ hi1 && isCont b2 then
          (utf8Decode r).map
            (fun cs => ((b - 224) * 4096 + (b1 - 128) * 64 + (b2 - 128)) :: cs)
        else none
      | _ => none
    else if b ≤ 244 then
      match rest with
      | b1 :: b2 :: b3 :: r =>
        let lo1 := if b = 240 then 144 else 128
        let hi1 := if b = 244 then 143 else 191
        if lo1 ≤ b1 && b1 ≤ hi1 && isCont b2 && isCont b3 then
          (utf8Decode r).map
            (fun cs =>
              ((b - 240) * 262144 + (b1 - 128) * 4096 + (b2 - 128) * 64
                + (b3 - 128)) :: cs)
        else none
      | _ => none
    else none

/-- Source `parse_osc_message` (lines 154-168): find the first null byte (`None` when
absent, matching `find` returning -1), then UTF-8-decode the bytes before it;
any decode error is caught and yields `None`. -/
def parse_osc_message (data : List Nat) : Option (List Nat) :=
  match data.findIdx? (fun b => b = 0) with
  | none => none
  | some p => utf8Decode (data.take p)

/-- UTF-8 bytes of an ASCII Lean string (all addresses in the program are
ASCII, so the byte sequence is the character codes). -/
def asciiBytes (s : String) : List Nat :=
  s.data.map Char.toNat

/-- An edge-detector event: `/button/press` or `/button/release` being sent. -/
inductive Event : Type
  | pressed
  | released
deriving DecidableEq, Repr

/-- The transition logic of `handle_button_events` (lines 245-275): with
`prev`/`curr` the previous/current raw values (`True` = not pressed,
`False` = pressed, active-low), a `True→False` transition emits `pressed`
and a `False→True` transition emits `released`; otherwise nothing. -/
def stepEvent (prev curr : Bool) : Option Event :=
  if prev && !curr then some Event.pressed
  else if !prev && curr then some Event.released
  else none

/-- Tick-level run of the edge detector: feed the sampled raw values one per
tick, starting from previous state `prev`, and collect per-tick emissions.
Models the `prev_btn_state` threading of the main loop (lines 320-330). -/
def tickEvents (prev : Bool) : List Bool → List (Option Event)
  | [] => []
  | c :: rest => stepEvent prev c :: tickEvents c rest

/-- Main-loop tick period: `time.sleep(0.05)` (line 330), in milliseconds. -/
def tickMs : Nat := 50

/-- Debounce hold after a release: `time.sleep(0.2)` (line 273), in
milliseconds. -/
def debounceMs : Nat := 200

/-- Timed edge-detector state: previous raw sample and the time (ms) of the
next sample. -/
structure DetState : Type where
  prev : Bool
  t : Nat
deriving DecidableEq, Repr

/-- One timed iteration: sample the raw signal at the current time, emit per
`stepEvent`, and advance time by one tick period plus — after a `released`
emission — the debounce hold, during which nothing is sampled (the
`time.sleep(0.2)` blocks the loop). -/
def detStep (raw : Nat → Bool) (s : DetState) : DetState × Option Event :=
  let curr := raw s.t
  let ev := stepEvent s.prev curr
  let dt := if ev = some Event.released then tickMs + debounceMs else tickMs
  (⟨curr, s.t + dt⟩, ev)

/-- Run `n` timed iterations, collecting the emissions. -/
def detRun (raw : Nat → Bool) (s : DetState) : Nat → List (Option Event)
  | 0 => []
  | n + 1 =>
    let p := detStep raw s
    p.2 :: detRun raw p.1 n

/-- A contact bounce pressed→released→pressed: the raw (active-low) signal
reads `true` (released) exactly on the interval `[a, b)` and `false`
(pressed) elsewhere. -/
def bounceSignal (a b : Nat) : Nat → Bool :=
  fun t => decide (a ≤ t ∧ t < b)

/-- Number of `released` emissions in a run. -/
def countReleased (l : List (Option Event)) : Nat :=
  (l.filter (fun e => e = some Event.released)).length

/-- Whitespace accepted by Python `int()` stripping (space, tab, newline,
vertical tab, form feed, carriage return). -/
def isPyWs (c : Char) : Bool :=
  c.toNat = 32 || c.toNat = 9 || c.toNat = 10 || c.toNat = 11 ||
  c.toNat = 12 || c.toNat = 13

/-- Decimal digit value of a character, if any. -/
def digitVal (c : Char) : Option Nat :=
  if 48 ≤ c.toNat && c.toNat ≤ 57 then some (c.toNat - 48) else none

/-- Digit run of Python `int()` after the first digit: digits, with single
underscores allowed only between digits. -/
def pyDigitsGo (acc : Nat) : List Char → Option Nat
  | [] => some acc
  | c :: rest =>
    match digitVal c with
    | some d => pyDigitsGo (acc * 10 + d) rest
    | none =>
      if c = '_' then
        match rest with
        | c2 :: rest2 =>
          match digitVal c2 with
          | some d => pyDigitsGo (acc * 10 + d) rest2
          | none => none
        | [] => none
      else none

/-- Modelled from the spec and Python semantics: `int(string)` as called at
line 226 (`int(config['DEVICE_ID'])`) — strip whitespace, optional sign,
then a nonempty digit run; `none` models the `ValueError` raised for
non-numeric strings such as `"unknown_device"`. -/
def pyIntCore (cs : List Char) : Option Int :=
  let stripped := ((cs.dropWhile isPyWs).reverse.dropWhile isPyWs).reverse
  let signed : Int × List Char :=
    match stripped with
    | '+' :: r => (1, r)
    | '-' :: r => (-1, r)
    | r => (1, r)
  match signed.2 with
  | [] => none
  | c :: r =>
    match digitVal c with
    | some d => (pyDigitsGo d r).map (fun n => signed.1 * Int.ofNat n)
    | none => none

/-- Python `int()` on a configuration string. -/
def pyInt (s : String) : Option Int :=
  pyIntCore s.data

/-- The `DEVICE_ID` lookup of `load_configuration` (line 42):
`os.getenv("DEVICE_ID", "unknown_device")`. -/
def deviceIdOf (env : Option String) : String :=
  env.getD "unknown_device"

/-- Externally visible actions of the retry loops: a `wifi.radio.connect`
attempt, a `socket.sendto` of a message, or a `time.sleep` of some whole
number of seconds. -/
inductive NetAct : Type
  | connectAttempt
  | send (msg : List Nat)
  | sleep (secs : Nat)
deriving DecidableEq, Repr

/-- The `max_retries` of `connect_wifi` (line 80). -/
def wifiMaxRetries : Nat := 3

/-- Inter-attempt delay of `connect_wifi` (line 91): `time.sleep(2)`. -/
def wifiRetryDelay : Nat := 2

/-- The `max_retries` of `send_handshake` (line 221). -/
def hsMaxRetries : Nat := 3

/-- Inter-attempt delay of `send_handshake` (line 235): `time.sleep(1)`. -/
def hsRetryDelay : Nat := 1

/-- The handshake address (line 225), as UTF-8 bytes. -/
def handshakeAddr : List Nat := asciiBytes "/button/handshake"

/-- Body of the `for attempt in range(max_retries)` loop of `connect_wifi`
(lines 81-93), over the list of remaining attempt indices; `ok i` tells
whether the `wifi.radio.connect` call of attempt `i` succeeds.  Returns the
action trace and whether an attempt succeeded (the function returns the
assigned IP on success, `None` after exhausting attempts). -/
def connectWifiGo (ok : Nat → Bool) : List Nat → List NetAct × Bool
  | [] => ([], false)
  | a :: rest =>
    if ok a then ([NetAct.connectAttempt], true)
    else
      let p := connectWifiGo ok rest
      (NetAct.connectAttempt ::
        ((if a < wifiMaxRetries - 1 then [NetAct.sleep wifiRetryDelay] else []) ++ p.1),
       p.2)

/-- Source `connect_wifi` (lines 78-94). -/
def connect_wifi (ok : Nat → Bool) : List NetAct × Bool :=
  connectWifiGo ok (List.range wifiMaxRetries)

/-- Body of the `for attempt in range(max_retries)` loop of `send_handshake`
(lines 222-235).  Each attempt first evaluates `int(config['DEVICE_ID'])` —
whose `ValueError` is caught by the same `except`, so a non-numeric id fails
the attempt before any send — then builds the message and calls `sendto`
(`ok i` tells whether the send of attempt `i` succeeds); on success the
function returns `True` immediately, otherwise it sleeps `hsRetryDelay`
between attempts and returns `False` after the last. -/
def sendHandshakeGo (deviceId : String) (ok : Nat → Bool) :
    List Nat → List NetAct × Bool
  | [] => ([], false)
  | a :: rest =>
    match pyInt deviceId with
    | some n =>
      let msg := build_osc_message handshakeAddr [Arg.int n]
      if ok a then ([NetAct.send msg], true)
      else
        let p := sendHandshakeGo deviceId ok rest
        (NetAct.send msg ::
          ((if a < hsMaxRetries - 1 then [NetAct.sleep hsRetryDelay] else []) ++ p.1),
         p.2)
    | none =>
      let p := sendHandshakeGo deviceId ok rest
      ((if a < hsMaxRetries - 1 then [NetAct.sleep hsRetryDelay] else []) ++ p.1,
       p.2)

/-- Source `send_handshake` (lines 219-239): action trace and returned boolean. -/
def send_handshake (deviceId : String) (ok : Nat → Bool) : List NetAct × Bool :=
  sendHandshakeGo deviceId ok (List.range hsMaxRetries)

/-- Sleep durations appearing in an action trace, in order. -/
def sleepDurations (l : List NetAct) : List Nat :=
  l.filterMap (fun a => match a with | NetAct.sleep s => some s | _ => none)

/-- Number of `wifi.radio.connect` calls in a trace. -/
def connectCount (l : List NetAct) : Nat :=
  (l.filter (fun a => a = NetAct.connectAttempt)).length

/-- Number of `sendto` calls in a trace. -/
def sendCount (l : List NetAct) : Nat :=
  (l.filter (fun a => match a with | NetAct.send _ => true | _ => false)).length

/-- Startup sequence of `main` (lines 296-323): if `connect_wifi` fails the
function returns before the loop (line 309); otherwise `send_handshake` runs
and — whatever it returns — execution proceeds to the main loop (line 323).
Result: (handshake result, whether the control loop was reached). -/
def mainRun (wifiOk : Nat → Bool) (deviceId : String) (hsOk : Nat → Bool) :
    Bool × Bool :=
  if (connect_wifi wifiOk).2 then ((send_handshake deviceId hsOk).2, true)
  else (false, false)

/-- The `if osc_address:` truthiness test of `handle_incoming_messages`
(line 284): a decoded address is dispatched only when non-empty. -/
def dispatchAddr (a : List Nat) : Option (List Nat) :=
  if a = [] then none else some a

/-- One tick of the main loop restricted to its two per-tick steps
(lines 323-330): service an optional inbound datagram (parse errors are
dropped, line 284), then advance the edge detector on the raw sample.
Result: (dispatched address, emitted event, new previous-state). -/
def loopTick (datagram : Option (List Nat)) (raw prev : Bool) :
    Option (List Nat) × Option Event × Bool :=
  let cmd :=
    match datagram with
    | none => none
    | some d =>
      match parse_osc_message d with
      | none => none
      | some a => dispatchAddr a
  (cmd, stepEvent prev raw, raw)

/-- The handshake message for device identity `n` (line 226):
`build_osc_message('/button/handshake', int(config['DEVICE_ID']))`. -/
def handshakeMsg (n : Int) : List Nat :=
  build_osc_message handshakeAddr [Arg.int n]

theorem build_osc_message_eq_flatten (addr : List Nat) (args : List Arg) :
    build_osc_message addr args = (oscFields addr args).flatten := by
  simp [build_osc_message, oscFields]

example : asciiBytes "/abc" = [47, 97, 98, 99] := by decide

example : build_osc_message (asciiBytes "/abc") [] =
    [47, 97, 98, 99, 44, 0, 0, 0] := by decide

example : parse_osc_message (build_osc_message (asciiBytes "/abc") []) =
    some [47, 97, 98, 99, 44] := by decide

example : parse_osc_message (build_osc_message (asciiBytes "/button/press") []) =
    some (asciiBytes "/button/press") := by decide

example : utf8Decode [0xE2, 0x82, 0xAC] = some [0x20AC] := by decide

example : utf8Decode [0xED, 0xA0, 0x80] = none := by decide

theorem pad4_length_mod (l : List Nat) : (pad4 l).length % 4 = 0 := by
  simp [pad4]
  omega

theorem typeTags_go (args : List Arg) (init : List Nat) :
    args.foldl (fun acc a => acc ++ [tagByte a]) init = init ++ args.map tagByte := by
  induction args generalizing init with
  | nil => simp
  | cons a rest ih => simp [List.foldl_cons, ih]

theorem typeTags_eq (args : List Arg) :
    typeTags args = 44 :: args.map tagByte := by
  simp [typeTags, typeTags_go]

/-- Claim C4: the padding applied to the address field, the type-tag field and
each string argument appends exactly `(4 - L mod 4) mod 4` zero bytes (none
when `L` is already a multiple of 4), and every field of the encoded message
has byte length a multiple of 4. -/
theorem c4_padding :
    (∀ l : List Nat, pad4 l = l ++ List.replicate ((4 - l.length % 4) % 4) 0) ∧
    (∀ l : List Nat, l.length % 4 = 0 → pad4 l = l) ∧
    (∀ (addr : List Nat) (args : List Arg),
      ∀ f ∈ oscFields addr args, f.length % 4 = 0) := by
  refine ⟨fun l => rfl, fun l h => by simp [pad4, h], ?_⟩
  intro addr args f hf
  simp only [oscFields, List.mem_cons] at hf
  rcases hf with rfl | rfl | hf
  · exact pad4_length_mod addr
  · exact pad4_length_mod (typeTags args)
  · rcases List.mem_map.mp hf with ⟨a, _, rfl⟩
    cases a with
    | int i => simp [encodeArg, intToBytes4]
    | str s => exact pad4_length_mod (s ++ [0])

theorem c4_padding_witness :
    pad4 [1, 2, 3, 4] = [1, 2, 3, 4] ∧ (pad4 [7]).length % 4 = 0 :=
  ⟨c4_padding.2.1 [1, 2, 3, 4] (by decide),
   c4_padding.2.2 [7] [] (pad4 [7]) (by simp [oscFields])⟩

/-- Claim C5: the type-tag string built before padding is a comma followed by
one letter per argument in positional order — `'i'` (105) for an integer,
`'s'` (115) for a string; for args `[5, "hi"]` it is `",is"`. -/
theorem c5_type_tags (args : List Arg) :
    typeTags args = 44 :: args.map tagByte ∧
    typeTags [Arg.int 5, Arg.str [104, 105]] = [44, 105, 115] :=
  ⟨typeTags_eq args, by decide⟩

/-- Claim C6: `encode('/button/handshake', [42])` yields the padded address,
the type tag `",i"` padded to 4 bytes, then the big-endian signed bytes
`00 00 00 2A`. -/
theorem c6_handshake_scenario :
    build_osc_message (asciiBytes "/button/handshake") [Arg.int 42] =
      [47, 98, 117, 116, 116, 111, 110, 47, 104, 97, 110, 100, 115, 104, 97,
       107, 101, 0, 0, 0, 44, 105, 0, 0, 0, 0, 0, 42] := by decide

theorem findIdx_zero_append (l t : List Nat) (h : ¬ 0 ∈ l) :
    (l ++ 0 :: t).findIdx? (fun b => b = 0) = some l.length := by
  induction l with
  | nil => simp [List.findIdx?_cons]
  | cons a l ih =>
    have ha : a ≠ 0 := by intro hc; exact h (hc ▸ List.mem_cons_self a l)
    have hl : ¬ 0 ∈ l := fun hc => h (List.mem_cons_of_mem a hc)
    simp [List.findIdx?_cons, ha, ih hl]

theorem parse_prepad (l t : List Nat) (h : ¬ 0 ∈ l) :
    parse_osc_message (l ++ 0 :: t) = utf8Decode l := by
  unfold parse_osc_message
  rw [findIdx_zero_append l t h]
  simp [List.take_left]

theorem pad4_cons_zero (l : List Nat) (h4 : l.length % 4 ≠ 0) :
    pad4 l = l ++ 0 :: List.replicate (3 - l.length % 4) 0 := by
  have hr : (4 - l.length % 4) % 4 = (3 - l.length % 4) + 1 := by omega
  simp [pad4, hr, List.replicate_succ]

/-- Claim C1 (corrected): for every address whose UTF-8 bytes contain no null
byte and whose byte length is not a multiple of 4, and every argument list,
decoding the encoded message recovers exactly the address (`cs` being the
address's code points).  When the byte length is a multiple of 4 the encoder
inserts no null terminator after the address and decoding picks up the
type-tag comma (see the counterexample). -/
theorem c1_roundtrip (addr cs : List Nat) (args : List Arg)
    (h0 : ¬ 0 ∈ addr) (h4 : addr.length % 4 ≠ 0)
    (hv : utf8Decode addr = some cs) :
    parse_osc_message (build_osc_message addr args) = some cs := by
  have hb : build_osc_message addr args =
      addr ++ 0 :: (List.replicate (3 - addr.length % 4) 0 ++
        (pad4 (typeTags args) ++ (args.map encodeArg).flatten)) := by
    unfold build_osc_message
    rw [pad4_cons_zero addr h4]
    simp [List.append_assoc]
  rw [hb, parse_prepad _ _ h0, hv]

theorem c1_roundtrip_witness :
    parse_osc_message (build_osc_message (asciiBytes "/button/press") []) =
      some (asciiBytes "/button/press") :=
  c1_roundtrip (asciiBytes "/button/press") (asciiBytes "/button/press") []
    (by decide) (by decide) (by decide)

/-- Claim C1 counterexample: the address `/abc` (4 bytes, already a multiple
of 4) gets no padding and no null terminator, so decoding the encoded message
returns `/abc,` — a different string — refuting the unrestricted round-trip
claim. -/
theorem c1_counterexample :
    parse_osc_message (build_osc_message (asciiBytes "/abc") []) =
      some (asciiBytes "/abc,") ∧
    asciiBytes "/abc," ≠ asciiBytes "/abc" := by decide

theorem findIdx_zero_none_iff (data : List Nat) :
    data.findIdx? (fun b => b = 0) = none ↔ ¬ 0 ∈ data := by
  rw [List.findIdx?_eq_none_iff]
  constructor
  · intro h hc
    have := h 0 hc
    simp at this
  · intro h x hx
    simp only [decide_eq_false_iff_not]
    intro hc
    exact h (hc ▸ hx)

theorem take_findIdx_zero (data : List Nat) (p : Nat)
    (h : data.findIdx? (fun b => b = 0) = some p) :
    data.take p = data.takeWhile (fun b => b ≠ 0) := by
  induction data generalizing p with
  | nil => simp [List.findIdx?_nil] at h
  | cons a rest ih =>
    rw [List.findIdx?_cons] at h
    by_cases ha : a = 0
    · simp [ha] at h
      subst ha
      simp [← h, List.takeWhile_cons]
    · simp [ha] at h
      rcases h with ⟨q, hq, rfl⟩
      simp [List.take_succ_cons, List.takeWhile_cons, ha, ih q hq]

/-- Claim C7: decoding returns a parse error exactly when the datagram has no
null byte or the bytes before the first null byte are not valid UTF-8;
otherwise it returns the text before the first null byte.  A parse error is
dropped by the caller: the loop tick behaves exactly as if no datagram had
arrived. -/
theorem c7_decode_errors (data : List Nat) (raw prev : Bool) :
    (parse_osc_message data = none ↔
      (¬ 0 ∈ data ∨ utf8Decode (data.takeWhile (fun b => b ≠ 0)) = none)) ∧
    (0 ∈ data →
      parse_osc_message data = utf8Decode (data.takeWhile (fun b => b ≠ 0))) ∧
    (parse_osc_message data = none →
      loopTick (some data) raw prev = loopTick none raw prev) := by
  have hcall : ∀ h : parse_osc_message data = none,
      loopTick (some data) raw prev = loopTick none raw prev := by
    intro h
    simp [loopTick, h]
  cases hfi : data.findIdx? (fun b => b = 0) with
  | none =>
    have hmem : ¬ 0 ∈ data := (findIdx_zero_none_iff data).mp hfi
    refine ⟨?_, fun hc => absurd hc hmem, hcall⟩
    simp [parse_osc_message, hfi, hmem]
  | some p =>
    have hmem : 0 ∈ data := by
      by_contra hc
      rw [(findIdx_zero_none_iff data).mpr hc] at hfi
      exact Option.noConfusion hfi
    have hparse : parse_osc_message data =
        utf8Decode (data.takeWhile (fun b => b ≠ 0)) := by
      simp [parse_osc_message, hfi, take_findIdx_zero data p hfi]
    refine ⟨?_, fun _ => hparse, hcall⟩
    rw [hparse]
    simp [hmem]

theorem c7_witness :
    parse_osc_message [47, 97] = none ∧
    loopTick (some [47, 97]) true true = loopTick none true true :=
  ⟨by decide, (c7_decode_errors [47, 97] true true).2.2 (by decide)⟩

theorem stepEvent_same (p : Bool) : stepEvent p p = none := by
  cases p <;> decide

theorem tickEvents_replicate (p : Bool) (m : Nat) (l : List Bool) :
    tickEvents p (List.replicate m p ++ l) =
      List.replicate m none ++ tickEvents p l := by
  induction m with
  | zero => simp
  | succ m ih =>
    simp [List.replicate_succ, tickEvents, stepEvent_same, ih]

/-- Claim C3: when the raw input changes once and then stays steady, exactly
one event is emitted at the transition tick — `pressed` for a `true→false`
(active-low) transition, `released` for `false→true` — and none on any other
tick; a tick whose raw value equals the previous tick's value emits nothing. -/
theorem c3_steady_idempotence (u v : Bool) (huv : u ≠ v) (k n : Nat) :
    tickEvents u (List.replicate k u ++ List.replicate (n + 1) v) =
      List.replicate k none ++
        some (if u then Event.pressed else Event.released) ::
          List.replicate n none ∧
    ∀ p : Bool, stepEvent p p = none := by
  refine ⟨?_, stepEvent_same⟩
  rw [tickEvents_replicate]
  have hrest : tickEvents u (List.replicate (n + 1) v) =
      stepEvent u v :: List.replicate n none := by
    have : tickEvents v (List.replicate n v ++ []) =
        List.replicate n none ++ tickEvents v [] :=
      tickEvents_replicate v n []
    simp [tickEvents] at this
    simp [List.replicate_succ, tickEvents, this]
  rw [hrest]
  cases u <;> cases v <;> simp_all [stepEvent]

theorem c3_witness :
    tickEvents true (List.replicate 2 true ++ List.replicate 4 false) =
      List.replicate 2 none ++
        some Event.pressed :: List.replicate 3 none :=
  (c3_steady_idempotence true false (by decide) 2 3).1

theorem countReleased_cons (e : Option Event) (l : List (Option Event)) :
    countReleased (e :: l) =
      (if e = some Event.released then 1 else 0) + countReleased l := by
  by_cases h : e = some Event.released <;>
    simp [countReleased, List.filter_cons, h, Nat.add_comm]

theorem stepEvent_released_iff (p c : Bool) :
    stepEvent p c = some Event.released ↔ p = false ∧ c = true := by
  cases p <;> cases c <;> simp [stepEvent]

theorem detRun_no_release_after (a b : Nat) (n : Nat) (s : DetState)
    (hb : b ≤ s.t) :
    countReleased (detRun (bounceSignal a b) s n) = 0 := by
  induction n generalizing s with
  | zero => simp [detRun, countReleased]
  | succ n ih =>
    have hcurr : bounceSignal a b s.t = false := by
      simp only [bounceSignal, decide_eq_false_iff_not]
      omega
    have hev : stepEvent s.prev (bounceSignal a b s.t) ≠ some Event.released := by
      rw [hcurr]
      cases s.prev <;> simp [stepEvent]
    have hstep2 : (detStep (bounceSignal a b) s).2 =
        stepEvent s.prev (bounceSignal a b s.t) := rfl
    have ht : b ≤ (detStep (bounceSignal a b) s).1.t := by
      have : s.t ≤ (detStep (bounceSignal a b) s).1.t := by
        simp only [detStep]
        split <;> omega
      omega
    simp only [detRun, countReleased_cons, hstep2, hev, if_neg, ih _ ht]
    simp [hev]

/-- Claim C2: a contact bounce pressed→released→pressed whose released phase
lasts less than the debounce interval yields at most one `released` emission,
from any detector state; moreover after a `released` emission the detector
samples nothing for one tick period plus the debounce interval (the blocking
`time.sleep(0.2)`), so raw-input changes in that window are ignored. -/
theorem c2_debounce (a b n : Nat) (s : DetState) (hb : b < a + debounceMs) :
    countReleased (detRun (bounceSignal a b) s n) ≤ 1 ∧
    (∀ s2 : DetState, (detStep (bounceSignal a b) s2).2 = some Event.released →
      (detStep (bounceSignal a b) s2).1.t = s2.t + tickMs + debounceMs) := by
  constructor
  · induction n generalizing s with
    | zero => simp [detRun, countReleased]
    | succ n ih =>
      have hstep2 : (detStep (bounceSignal a b) s).2 =
          stepEvent s.prev (bounceSignal a b s.t) := rfl
      by_cases hev : (detStep (bounceSignal a b) s).2 = some Event.released
      · have hrel := (stepEvent_released_iff _ _).mp (hstep2 ▸ hev)
        have hab : a ≤ s.t ∧ s.t < b := by
          have := hrel.2
          simpa [bounceSignal] using this
        have ht : (detStep (bounceSignal a b) s).1.t =
            s.t + (tickMs + debounceMs) := by
          simp only [detStep, hstep2 ▸ hev]
          simp [hstep2 ▸ hev]
        have hge : b ≤ (detStep (bounceSignal a b) s).1.t := by
          rw [ht]
          simp only [tickMs, debounceMs] at *
          omega
        have h1 : (if (detStep (bounceSignal a b) s).2 = some Event.released
            then 1 else 0) = 1 := by simp [hev]
        simp only [detRun, countReleased_cons, h1,
          detRun_no_release_after a b n _ hge]
        omega
      · have h0 : (if (detStep (bounceSignal a b) s).2 = some Event.released
            then 1 else 0) = 0 := by simp [hev]
        simp only [detRun, countReleased_cons, h0]
        have := ih (detStep (bounceSignal a b) s).1
        omega
  · intro s2 hrel
    simp only [detStep] at hrel ⊢
    simp only [hrel]
    simp [hrel, Nat.add_assoc]

theorem c2_witness :
    (110 : Nat) < 60 + debounceMs ∧
    countReleased (detRun (bounceSignal 60 110) ⟨false, 0⟩ 10) ≤ 1 :=
  ⟨by decide, (c2_debounce 60 110 10 ⟨false, 0⟩ (by decide)).1⟩

theorem send_handshake_eval (d : String) (n : Int) (ok : Nat → Bool)
    (hd : pyInt d = some n) :
    send_handshake d ok =
      (if ok 0 then ([NetAct.send (handshakeMsg n)], true)
       else if ok 1 then
        ([NetAct.send (handshakeMsg n), NetAct.sleep hsRetryDelay,
          NetAct.send (handshakeMsg n)], true)
       else if ok 2 then
        ([NetAct.send (handshakeMsg n), NetAct.sleep hsRetryDelay,
          NetAct.send (handshakeMsg n), NetAct.sleep hsRetryDelay,
          NetAct.send (handshakeMsg n)], true)
       else
        ([NetAct.send (handshakeMsg n), NetAct.sleep hsRetryDelay,
          NetAct.send (handshakeMsg n), NetAct.sleep hsRetryDelay,
          NetAct.send (handshakeMsg n)], false)) := by
  have hr : List.range hsMaxRetries = [0, 1, 2] := rfl
  cases h0 : ok 0 <;> cases h1 : ok 1 <;> cases h2 : ok 2 <;>
    simp [send_handshake, hr, sendHandshakeGo, hd, h0, h1, h2,
      hsMaxRetries, handshakeMsg]

/-- Claim C8: with a numeric device identity, the handshake sends the message
`/button/handshake` with that identity as its one integer argument, retries
up to 3 times with a 1-second delay between attempts, stops at the first
successful send, returns failure only after all attempts fail, and a
handshake failure does not prevent the control loop from starting. -/
theorem c8_handshake_retry (d : String) (n : Int) (ok w : Nat → Bool)
    (hd : pyInt d = some n)
    (_hrange : -(2 ^ 31) ≤ n ∧ n < 2 ^ 31) :
    (ok 0 = true →
      send_handshake d ok = ([NetAct.send (handshakeMsg n)], true)) ∧
    (ok 0 = false → ok 1 = true →
      send_handshake d ok =
        ([NetAct.send (handshakeMsg n), NetAct.sleep hsRetryDelay,
          NetAct.send (handshakeMsg n)], true)) ∧
    (ok 0 = false → ok 1 = false → ok 2 = true →
      send_handshake d ok =
        ([NetAct.send (handshakeMsg n), NetAct.sleep hsRetryDelay,
          NetAct.send (handshakeMsg n), NetAct.sleep hsRetryDelay,
          NetAct.send (handshakeMsg n)], true)) ∧
    ((∀ i, i < hsMaxRetries → ok i = false) →
      send_handshake d ok =
        ([NetAct.send (handshakeMsg n), NetAct.sleep hsRetryDelay,
          NetAct.send (handshakeMsg n), NetAct.sleep hsRetryDelay,
          NetAct.send (handshakeMsg n)], false)) ∧
    ((send_handshake d ok).2 = true ↔ ∃ i, i < hsMaxRetries ∧ ok i = true) ∧
    ((connect_wifi w).2 = true → (mainRun w d ok).2 = true) := by
  rw [send_handshake_eval d n ok hd]
  have hmain : (connect_wifi w).2 = true → (mainRun w d ok).2 = true := by
    intro hw
    simp [mainRun, hw]
  refine ⟨?_, ?_, ?_, ?_, ?_, hmain⟩
  · intro h0
    simp [h0]
  · intro h0 h1
    simp [h0, h1]
  · intro h0 h1 h2
    simp [h0, h1, h2]
  · intro hall
    simp [hall 0 (by decide), hall 1 (by decide), hall 2 (by decide)]
  · constructor
    · intro hres
      by_cases h0 : ok 0
      · exact ⟨0, by decide, h0⟩
      by_cases h1 : ok 1
      · exact ⟨1, by decide, h1⟩
      by_cases h2 : ok 2
      · exact ⟨2, by decide, h2⟩
      · simp [h0, h1, h2] at hres
    · rintro ⟨i, hi, hoki⟩
      by_cases h0 : ok 0
      · simp [h0]
      by_cases h1 : ok 1
      · simp [h0, h1]
      by_cases h2 : ok 2
      · simp [h0, h1, h2]
      · have hcase : i = 0 ∨ i = 1 ∨ i = 2 := by
          simp only [hsMaxRetries] at hi
          omega
        rcases hcase with rfl | rfl | rfl <;> simp_all

theorem c8_witness :
    pyInt "42" = some 42 ∧
    send_handshake "42" (fun _ => true) =
      ([NetAct.send (handshakeMsg 42)], true) :=
  ⟨by decide,
   (c8_handshake_retry "42" 42 (fun _ => true) (fun _ => true)
      (by decide) (by decide)).1 rfl⟩

/-- Claim C9 counterexample: with every attempt failing, the WiFi connect
loop sleeps 2 seconds between attempts while the handshake loop sleeps 1
second — the inter-attempt delays are not equal, refuting the uniform
retry-policy claim. -/
theorem c9_counterexample :
    sleepDurations (connect_wifi (fun _ => false)).1 =
      [wifiRetryDelay, wifiRetryDelay] ∧
    sleepDurations (send_handshake "7" (fun _ => false)).1 =
      [hsRetryDelay, hsRetryDelay] ∧
    wifiRetryDelay ≠ hsRetryDelay := by decide

theorem connect_wifi_eval (ok : Nat → Bool) :
    connect_wifi ok =
      (if ok 0 then ([NetAct.connectAttempt], true)
       else if ok 1 then
        ([NetAct.connectAttempt, NetAct.sleep wifiRetryDelay,
          NetAct.connectAttempt], true)
       else if ok 2 then
        ([NetAct.connectAttempt, NetAct.sleep wifiRetryDelay,
          NetAct.connectAttempt, NetAct.sleep wifiRetryDelay,
          NetAct.connectAttempt], true)
       else
        ([NetAct.connectAttempt, NetAct.sleep wifiRetryDelay,
          NetAct.connectAttempt, NetAct.sleep wifiRetryDelay,
          NetAct.connectAttempt], false)) := by
  have hr : List.range wifiMaxRetries = [0, 1, 2] := rfl
  cases h0 : ok 0 <;> cases h1 : ok 1 <;> cases h2 : ok 2 <;>
    simp [connect_wifi, hr, connectWifiGo, h0, h1, h2, wifiMaxRetries]

/-- Claim C9 (corrected): the two retry loops share the same maximum attempt
count (3) — and with identical per-attempt outcomes perform the same number
of attempts — but their inter-attempt delays differ: 2 seconds for WiFi
connect against 1 second for the handshake send. -/
theorem c9_retry_policy (ok : Nat → Bool) (d : String) (n : Int)
    (hd : pyInt d = some n) :
    wifiMaxRetries = hsMaxRetries ∧
    connectCount (connect_wifi ok).1 = sendCount (send_handshake d ok).1 ∧
    wifiRetryDelay = 2 ∧ hsRetryDelay = 1 ∧ wifiRetryDelay ≠ hsRetryDelay := by
  refine ⟨rfl, ?_, rfl, rfl, by decide⟩
  rw [send_handshake_eval d n ok hd, connect_wifi_eval ok]
  cases h0 : ok 0 <;> cases h1 : ok 1 <;> cases h2 : ok 2 <;>
    simp [h0, h1, h2, connectCount, sendCount, List.filter]

theorem c9_witness :
    connectCount (connect_wifi (fun _ => false)).1 =
      sendCount (send_handshake "42" (fun _ => false)).1 ∧
    wifiRetryDelay ≠ hsRetryDelay :=
  ⟨(c9_retry_policy (fun _ => false) "42" 42 (by decide)).2.1,
   (c9_retry_policy (fun _ => false) "42" 42 (by decide)).2.2.2.2⟩

/-- Claim C10: with `DEVICE_ID` absent (defaulting to `"unknown_device"`) or
any non-numeric string, `int(config['DEVICE_ID'])` raises on every attempt
before any send, so the handshake sends nothing, sleeps between its three
attempts, returns failure, and the control loop still starts. -/
theorem c10_invalid_device_id (env : Option String) (ok w : Nat → Bool)
    (hd : pyInt (deviceIdOf env) = none)
    (hw : (connect_wifi w).2 = true) :
    send_handshake (deviceIdOf env) ok =
      ([NetAct.sleep hsRetryDelay, NetAct.sleep hsRetryDelay], false) ∧
    sendCount (send_handshake (deviceIdOf env) ok).1 = 0 ∧
    (mainRun w (deviceIdOf env) ok).2 = true ∧
    deviceIdOf none = "unknown_device" ∧
    pyInt "unknown_device" = none := by
  have h1 : send_handshake (deviceIdOf env) ok =
      ([NetAct.sleep hsRetryDelay, NetAct.sleep hsRetryDelay], false) := by
    have hr : List.range hsMaxRetries = [0, 1, 2] := rfl
    simp [send_handshake, hr, sendHandshakeGo, hd, hsMaxRetries]
  refine ⟨h1, ?_, by simp [mainRun, hw], rfl, by decide⟩
  rw [h1]
  decide

theorem c10_witness :
    pyInt (deviceIdOf none) = none ∧
    send_handshake (deviceIdOf none) (fun _ => true) =
      ([NetAct.sleep hsRetryDelay, NetAct.sleep hsRetryDelay], false) ∧
    (mainRun (fun _ => true) (deviceIdOf none) (fun _ => true)).2 = true :=
  ⟨by decide,
   (c10_invalid_device_id none (fun _ => true) (fun _ => true)
      (by decide) (by decide)).1,
   (c10_invalid_device_id none (fun _ => true) (fun _ => true)
      (by decide) (by decide)).2.2.1⟩

end OscButton
